import Mathlib

/-!
Verification of the agent-watch monitoring core.

Rust strings are modelled as lists of characters; positions and lengths are
measured in characters, which coincides with the byte-based Rust semantics on
ASCII data (all built-in patterns, flags and markers in this code base are
ASCII).  Lowercasing is ASCII lowercasing, matching the behaviour of
to_lowercase on the ASCII inputs that occur here.  Effectful operations
(uuid generation, clocks, the file system, symlink resolution) are passed in
as explicit parameters.
-/

namespace AgentWatch

/-- Strings of the Rust source, modelled as lists of characters. -/
abbrev Str := List Char

/-- Embeds a Lean string literal as a character list. -/
def lit (s : String) : Str := s.data

/-- Lowercase a modelled string character by character. -/
def toLowerStr (s : Str) : Str := s.map Char.toLower

/-- Substring containment, modelling str contains on strings. -/
def containsSub (s pat : Str) : Bool :=
  match s with
  | [] => pat.isEmpty
  | c :: t => pat.isPrefixOf (c :: t) || containsSub t pat

/-- First index at which pat occurs in s, modelling str find on strings. -/
def findSub (s pat : Str) : Option Nat :=
  match s with
  | [] => if pat.isEmpty then some 0 else none
  | c :: t =>
    if pat.isPrefixOf (c :: t) then some 0
    else (findSub t pat).map (fun i => i + 1)

/-- Last index at which pat occurs in s, modelling str rfind. -/
def rfindSub (s pat : Str) : Option Nat :=
  match s with
  | [] => if pat.isEmpty then some 0 else none
  | c :: t =>
    match rfindSub t pat with
    | some i => some (i + 1)
    | none => if pat.isPrefixOf (c :: t) then some 0 else none

/-- First index of a character in a string, modelling str find on a char. -/
def findChar (s : Str) (c : Char) : Option Nat :=
  match s with
  | [] => none
  | d :: t => if d == c then some 0 else (findChar t c).map (fun i => i + 1)

/-- Splitting on a character predicate, keeping empty pieces. -/
def splitOnPred (p : Char → Bool) : Str → List Str
  | [] => [[]]
  | c :: t =>
    let r := splitOnPred p t
    if p c then [] :: r
    else
      match r with
      | [] => [[c]]
      | h :: rest => (c :: h) :: rest

/-- Whitespace splitting that drops empty pieces, modelling split_whitespace. -/
def splitWhitespace (s : Str) : List Str :=
  (splitOnPred Char.isWhitespace s).filter (fun t => !t.isEmpty)

/-- Trim leading and trailing whitespace, modelling str trim. -/
def trimStr (s : Str) : Str :=
  ((s.dropWhile Char.isWhitespace).reverse.dropWhile Char.isWhitespace).reverse

/-- Join a list of strings with single spaces. -/
def joinSpace (xs : List Str) : Str :=
  List.intercalate (lit " ") xs

/-- Risk level for categorizing event severity, from event.rs. -/
inductive RiskLevel
  | Low
  | Medium
  | High
  | Critical
deriving DecidableEq

/-- Numeric rank of a risk level, giving the derived total order of the enum. -/
def RiskLevel.toNat : RiskLevel → Nat
  | .Low => 0
  | .Medium => 1
  | .High => 2
  | .Critical => 3

instance : LE RiskLevel := ⟨fun a b => a.toNat ≤ b.toNat⟩

instance : LT RiskLevel := ⟨fun a b => a.toNat < b.toNat⟩

instance (a b : RiskLevel) : Decidable (a ≤ b) :=
  inferInstanceAs (Decidable (a.toNat ≤ b.toNat))

instance (a b : RiskLevel) : Decidable (a < b) :=
  inferInstanceAs (Decidable (a.toNat < b.toNat))

/-- File system action types, from event.rs. -/
inductive FileAction
  | read
  | write
  | delete
  | create
  | chmod
deriving DecidableEq

/-- Process action types, from event.rs. -/
inductive ProcessAction
  | start
  | exit
  | fork
deriving DecidableEq

/-- Session action types, from event.rs. -/
inductive SessionAction
  | start
  | end_
deriving DecidableEq

/-- Tagged union of event payloads, from event.rs. -/
inductive EventType
  | command (command : Str) (args : List Str) (exitCode : Option Int)
  | fileAccess (path : Str) (action : FileAction)
  | network (host : Str) (port : Nat) (protocol : Str)
  | process (pid : Nat) (ppid : Option Nat) (action : ProcessAction)
  | session (action : SessionAction)
deriving DecidableEq

/-- A monitoring event, from event.rs.  The uuid and the clock reading of the
Rust constructor are effectful and are therefore passed in explicitly. -/
structure Event where
  id : Nat
  timestamp : Nat
  eventType : EventType
  process : Str
  pid : Nat
  riskLevel : RiskLevel
  alert : Bool
deriving DecidableEq

/-- Constructor Event::new: the alert flag is derived from the risk level and
cannot be supplied by the caller. -/
def Event.new (id timestamp : Nat) (eventType : EventType) (process : Str)
    (pid : Nat) (riskLevel : RiskLevel) : Event :=
  { id := id
    timestamp := timestamp
    eventType := eventType
    process := process
    pid := pid
    riskLevel := riskLevel
    alert := match riskLevel with
      | .Critical => true
      | .High => true
      | _ => false }

/-- Wrapper Event::command. -/
def Event.command (id timestamp : Nat) (command : Str) (args : List Str)
    (process : Str) (pid : Nat) (riskLevel : RiskLevel) : Event :=
  Event.new id timestamp (EventType.command command args none) process pid riskLevel

/-- Wrapper Event::session_start. -/
def Event.sessionStart (id timestamp : Nat) (process : Str) (pid : Nat) : Event :=
  Event.new id timestamp (EventType.session SessionAction.start) process pid RiskLevel.Low

/-- Wrapper Event::session_end. -/
def Event.sessionEnd (id timestamp : Nat) (process : Str) (pid : Nat) : Event :=
  Event.new id timestamp (EventType.session SessionAction.end_) process pid RiskLevel.Low

/-- Wrapper Event::process_start. -/
def Event.processStart (id timestamp : Nat) (process : Str) (pid : Nat)
    (ppid : Option Nat) (riskLevel : RiskLevel) : Event :=
  Event.new id timestamp (EventType.process pid ppid ProcessAction.start) process pid riskLevel

/-- Wrapper Event::process_exit. -/
def Event.processExit (id timestamp : Nat) (process : Str) (pid : Nat)
    (ppid : Option Nat) : Event :=
  Event.new id timestamp (EventType.process pid ppid ProcessAction.exit) process pid RiskLevel.Low

/-- Tracked network connection, from netmon.rs, used as the dedup key. -/
structure TrackedConnection where
  pid : Nat
  host : Str
  port : Nat
  protocol : Str
deriving DecidableEq

/-- Two-generation cache for seen connections, from netmon.rs.  The Rust
hash sets are modelled as duplicate-free lists. -/
structure SeenConnectionsCache where
  current : List TrackedConnection
  previous : List TrackedConnection
  maxSize : Nat

/-- Constructor SeenConnectionsCache::new. -/
def SeenConnectionsCache.make (maxSize : Nat) : SeenConnectionsCache :=
  { current := [], previous := [], maxSize := maxSize }

/-- Set insertion for the modelled hash sets: add only when absent. -/
def setInsert (l : List TrackedConnection) (c : TrackedConnection) : List TrackedConnection :=
  if l.contains c then l else c :: l

/-- Membership test SeenConnectionsCache::contains. -/
def SeenConnectionsCache.containsConn (cache : SeenConnectionsCache)
    (c : TrackedConnection) : Bool :=
  cache.current.contains c || cache.previous.contains c

/-- Insertion SeenConnectionsCache::insert with the rotation policy. -/
def SeenConnectionsCache.insertConn (cache : SeenConnectionsCache)
    (c : TrackedConnection) : SeenConnectionsCache :=
  let cur := setInsert cache.current c
  if cache.maxSize > 0 && cur.length > cache.maxSize then
    { current := [], previous := cur, maxSize := cache.maxSize }
  else
    { current := cur, previous := cache.previous, maxSize := cache.maxSize }

/-- Mask placeholder for sensitive data, from sanitize.rs. -/
def MASK : Str := lit "***"

/-- Flags whose next argument is sensitive, from sanitize.rs. -/
def SENSITIVE_FLAGS : List Str :=
  [lit "-p", lit "--password", lit "--token", lit "--api-key", lit "--apikey",
   lit "--secret", lit "-k", lit "--key", lit "--auth", lit "--auth-token",
   lit "--access-token", lit "--private-key"]

/-- Inline flag prefixes of the form flag equals value, from sanitize.rs. -/
def SENSITIVE_INLINE_FLAGS : List Str :=
  [lit "--password=", lit "--token=", lit "--api-key=", lit "--apikey=",
   lit "--secret=", lit "--key=", lit "--auth=", lit "--auth-token=",
   lit "--access-token=", lit "--private-key="]

/-- Sensitive environment variable prefixes, from sanitize.rs. -/
def SENSITIVE_ENV_PREFIXES : List Str :=
  [lit "ANTHROPIC_API_KEY=", lit "OPENAI_API_KEY=", lit "AWS_SECRET_ACCESS_KEY=",
   lit "AWS_SESSION_TOKEN=", lit "GITHUB_TOKEN=", lit "GH_TOKEN=", lit "NPM_TOKEN=",
   lit "DOCKER_PASSWORD=", lit "DATABASE_PASSWORD=", lit "DB_PASSWORD=",
   lit "MYSQL_PASSWORD=", lit "POSTGRES_PASSWORD=", lit "REDIS_PASSWORD=",
   lit "SECRET_KEY=", lit "PRIVATE_KEY=", lit "API_KEY=", lit "API_SECRET=",
   lit "AUTH_TOKEN=", lit "ACCESS_TOKEN=", lit "REFRESH_TOKEN="]

/-- Lowercased sensitive flags, from sanitize.rs. -/
def SENSITIVE_FLAGS_LOWER : List Str := SENSITIVE_FLAGS.map toLowerStr

/-- Lowercased inline flag prefixes, from sanitize.rs. -/
def SENSITIVE_INLINE_FLAGS_LOWER : List Str := SENSITIVE_INLINE_FLAGS.map toLowerStr

/-- Lowercased environment variable prefixes, from sanitize.rs. -/
def SENSITIVE_ENV_PREFIXES_LOWER : List Str := SENSITIVE_ENV_PREFIXES.map toLowerStr

/-- Function mask_inline_flag from sanitize.rs: mask the value of an inline
flag of the form flag equals value, keeping the flag part before the first
equals sign. -/
def maskInlineFlag (arg : Str) : Option Str :=
  SENSITIVE_INLINE_FLAGS_LOWER.firstM (fun p =>
    if p.isPrefixOf (toLowerStr arg) then
      (findChar arg '=').map (fun eqPos => arg.take eqPos ++ lit "=" ++ MASK)
    else none)

/-- Function mask_env_variable from sanitize.rs. -/
def maskEnvVariable (arg : Str) : Option Str :=
  SENSITIVE_ENV_PREFIXES_LOWER.firstM (fun p =>
    if p.isPrefixOf (toLowerStr arg) then
      (findChar arg '=').map (fun eqPos => arg.take eqPos ++ lit "=" ++ MASK)
    else none)

/-- Function mask_token_patterns from sanitize.rs. -/
def maskTokenPatterns (arg : Str) : Option Str :=
  if (lit "sk-ant-").isPrefixOf arg then
    some (lit "sk-ant-" ++ MASK)
  else if (lit "sk-").isPrefixOf arg && arg.length > 20 && !(lit "sk-ant-").isPrefixOf arg then
    some (lit "sk-" ++ MASK)
  else if (lit "ghp_").isPrefixOf arg || (lit "gho_").isPrefixOf arg
      || (lit "ghs_").isPrefixOf arg || (lit "ghr_").isPrefixOf arg then
    some (arg.take 4 ++ MASK)
  else if ((lit "AKIA").isPrefixOf arg || (lit "ASIA").isPrefixOf arg) && arg.length == 20 then
    some MASK
  else if (lit "npm_").isPrefixOf arg then
    some (lit "npm_" ++ MASK)
  else none

/-- Function mask_http_header from sanitize.rs. -/
def maskHttpHeader (arg : Str) : Option Str :=
  if (lit "bearer ").isPrefixOf (toLowerStr arg) then
    some (lit "Bearer " ++ MASK)
  else if (lit "basic ").isPrefixOf (toLowerStr arg) then
    some (lit "Basic " ++ MASK)
  else if (lit "authorization:").isPrefixOf (toLowerStr arg) then
    (findChar arg ':').map (fun colonPos => arg.take colonPos ++ lit ": " ++ MASK)
  else if (lit "x-api-key:").isPrefixOf (toLowerStr arg) then
    (findChar arg ':').map (fun colonPos => arg.take colonPos ++ lit ": " ++ MASK)
  else none

/-- Function mask_url_credentials from sanitize.rs: mask user colon password
credentials embedded in a URL. -/
def maskUrlCredentials (arg : Str) : Option Str :=
  match findSub arg (lit "://") with
  | none => none
  | some schemeEnd =>
    let afterScheme := arg.drop (schemeEnd + 3)
    match findChar afterScheme '@' with
    | none => none
    | some atPos =>
      let credentials := afterScheme.take atPos
      if credentials.contains ':' then
        some (arg.take (schemeEnd + 3) ++ MASK ++ lit "@" ++ afterScheme.drop (atPos + 1))
      else none

/-- Per-token rule chain of sanitize_args for a token that is not consumed as
the value of a next-arg flag and is not itself a next-arg flag. -/
def sanitizeToken (arg : Str) : Str :=
  match maskInlineFlag arg with
  | some m => m
  | none =>
    match maskEnvVariable arg with
    | some m => m
    | none =>
      match maskTokenPatterns arg with
      | some m => m
      | none =>
        match maskHttpHeader arg with
        | some m => m
        | none =>
          match maskUrlCredentials arg with
          | some m => m
          | none => arg

/-- Main loop of sanitize_args with its mask_next state. -/
def sanitizeAux (maskNext : Bool) : List Str → List Str
  | [] => []
  | arg :: rest =>
    if maskNext then
      MASK :: sanitizeAux false rest
    else if SENSITIVE_FLAGS_LOWER.contains (toLowerStr arg) then
      arg :: sanitizeAux true rest
    else
      sanitizeToken arg :: sanitizeAux false rest

/-- Function sanitize_args from sanitize.rs. -/
def sanitizeArgs (args : List Str) : List Str :=
  sanitizeAux false args

/-- Pattern type for matching commands, from risk.rs. -/
inductive RiskPattern
  | command (cmd : Str)
  | commandWithArgs (cmd : Str) (requiredArgs : List Str)
  | containsPattern (pat : Str)
  | pipePattern (first second : Str)

/-- Rule for matching commands to risk levels, from risk.rs. -/
structure RiskRule where
  pattern : RiskPattern
  level : RiskLevel
  reason : Str

/-- Risk scorer state, from risk.rs. -/
structure RiskScorer where
  rules : List RiskRule
  customHighRisk : List Str

/-- Joined command string used by RiskScorer::score. -/
def fullCommandStr (command : Str) (args : List Str) : Str :=
  if args.isEmpty then command else command ++ lit " " ++ joinSpace args

/-- Function RiskScorer::matches_rule. -/
def matchesRule (rule : RiskRule) (command : Str) (args : List Str)
    (fullCommand : Str) : Bool :=
  match rule.pattern with
  | .command cmd => command == cmd
  | .commandWithArgs cmd requiredArgs =>
    command == cmd &&
      requiredArgs.all (fun required =>
        args.any (fun a => a == required || (required ++ lit "=").isPrefixOf a))
  | .containsPattern pat => containsSub fullCommand pat
  | .pipePattern first second =>
    containsSub fullCommand first && containsSub fullCommand (lit "|")
      && containsSub fullCommand second

/-- First rule of a list that matches the scored command. -/
def firstMatchingRule (command : Str) (args : List Str) (fullCommand : Str) :
    List RiskRule → Option RiskRule
  | [] => none
  | r :: rs =>
    if matchesRule r command args fullCommand then some r
    else firstMatchingRule command args fullCommand rs

/-- Function RiskScorer::score: custom high-risk prefixes first, then the
built-in rules bucketed by level, critical before high before medium. -/
def RiskScorer.score (s : RiskScorer) (command : Str) (args : List Str) :
    RiskLevel × Option Str :=
  let fullCommand := fullCommandStr command args
  match s.customHighRisk.find? (fun custom => custom.isPrefixOf fullCommand) with
  | some _ => (RiskLevel.High, some (lit "Custom high-risk command"))
  | none =>
    let criticalRules := s.rules.filter (fun r => r.level == RiskLevel.Critical)
    let highRules := s.rules.filter (fun r => r.level == RiskLevel.High)
    let mediumRules := s.rules.filter (fun r => r.level == RiskLevel.Medium)
    match firstMatchingRule command args fullCommand criticalRules with
    | some r => (RiskLevel.Critical, some r.reason)
    | none =>
      match firstMatchingRule command args fullCommand highRules with
      | some r => (RiskLevel.High, some r.reason)
      | none =>
        match firstMatchingRule command args fullCommand mediumRules with
        | some r => (RiskLevel.Medium, some r.reason)
        | none => (RiskLevel.Low, none)

/-- Built-in rule catalogue RiskScorer::default_rules. -/
def defaultRules : List RiskRule :=
  [ { pattern := .commandWithArgs (lit "rm") [lit "-rf", lit "/"],
      level := RiskLevel.Critical,
      reason := lit "Recursive force delete of root directory" },
    { pattern := .commandWithArgs (lit "rm") [lit "-rf", lit "/*"],
      level := RiskLevel.Critical,
      reason := lit "Recursive force delete of root contents" },
    { pattern := .commandWithArgs (lit "chmod") [lit "777"],
      level := RiskLevel.Critical,
      reason := lit "Setting world-writable permissions" },
    { pattern := .commandWithArgs (lit "chmod") [lit "-R", lit "777"],
      level := RiskLevel.Critical,
      reason := lit "Recursively setting world-writable permissions" },
    { pattern := .pipePattern (lit "curl") (lit "bash"),
      level := RiskLevel.Critical,
      reason := lit "Piping remote script to shell (curl | bash)" },
    { pattern := .pipePattern (lit "wget") (lit "bash"),
      level := RiskLevel.Critical,
      reason := lit "Piping remote script to shell (wget | bash)" },
    { pattern := .pipePattern (lit "curl") (lit "sh"),
      level := RiskLevel.Critical,
      reason := lit "Piping remote script to shell (curl | sh)" },
    { pattern := .containsPattern (lit ":(){:|:&};:"),
      level := RiskLevel.Critical,
      reason := lit "Fork bomb detected" },
    { pattern := .commandWithArgs (lit "rm") [lit "-rf"],
      level := RiskLevel.High,
      reason := lit "Recursive force delete" },
    { pattern := .commandWithArgs (lit "rm") [lit "-r"],
      level := RiskLevel.High,
      reason := lit "Recursive delete" },
    { pattern := .command (lit "sudo"),
      level := RiskLevel.High,
      reason := lit "Privilege escalation" },
    { pattern := .command (lit "su"),
      level := RiskLevel.High,
      reason := lit "User switch" },
    { pattern := .command (lit "ssh"),
      level := RiskLevel.High,
      reason := lit "Remote shell access" },
    { pattern := .command (lit "scp"),
      level := RiskLevel.High,
      reason := lit "Remote file copy" },
    { pattern := .command (lit "rsync"),
      level := RiskLevel.High,
      reason := lit "Remote sync" },
    { pattern := .commandWithArgs (lit "chmod") [lit "+x"],
      level := RiskLevel.High,
      reason := lit "Adding execute permission" },
    { pattern := .command (lit "chown"),
      level := RiskLevel.High,
      reason := lit "Changing file ownership" },
    { pattern := .command (lit "mkfs"),
      level := RiskLevel.High,
      reason := lit "Formatting filesystem" },
    { pattern := .command (lit "dd"),
      level := RiskLevel.High,
      reason := lit "Low-level disk operation" },
    { pattern := .command (lit "curl"),
      level := RiskLevel.Medium,
      reason := lit "Network request" },
    { pattern := .command (lit "wget"),
      level := RiskLevel.Medium,
      reason := lit "Network download" },
    { pattern := .commandWithArgs (lit "pip") [lit "install"],
      level := RiskLevel.Medium,
      reason := lit "Python package installation" },
    { pattern := .commandWithArgs (lit "pip3") [lit "install"],
      level := RiskLevel.Medium,
      reason := lit "Python package installation" },
    { pattern := .commandWithArgs (lit "npm") [lit "install"],
      level := RiskLevel.Medium,
      reason := lit "NPM package installation" },
    { pattern := .commandWithArgs (lit "yarn") [lit "add"],
      level := RiskLevel.Medium,
      reason := lit "Yarn package installation" },
    { pattern := .commandWithArgs (lit "brew") [lit "install"],
      level := RiskLevel.Medium,
      reason := lit "Homebrew package installation" },
    { pattern := .commandWithArgs (lit "cargo") [lit "install"],
      level := RiskLevel.Medium,
      reason := lit "Cargo package installation" },
    { pattern := .command (lit "git"),
      level := RiskLevel.Medium,
      reason := lit "Git operation" },
    { pattern := .command (lit "docker"),
      level := RiskLevel.Medium,
      reason := lit "Docker operation" } ]

/-- Constructor RiskScorer::new with the default rule catalogue and no custom
high-risk commands. -/
def RiskScorer.make : RiskScorer :=
  { rules := defaultRules, customHighRisk := [] }

/-- Glob matching for the compiled patterns of detector.rs: a star matches any
character sequence and a question mark exactly one character, the semantics the
glob crate gives the patterns of this code base under its default options. -/
def globMatch : Str → Str → Bool
  | [], [] => true
  | [], _ :: _ => false
  | '*' :: ps, [] => globMatch ps []
  | '*' :: ps, c :: cs => globMatch ps (c :: cs) || globMatch ('*' :: ps) cs
  | '?' :: _, [] => false
  | '?' :: ps, _ :: cs => globMatch ps cs
  | _ :: _, [] => false
  | p :: ps, c :: cs => p == c && globMatch ps cs
termination_by pat s => (pat.length, s.length)

/-- Lowercase sensitive directory fragments, from detector.rs. -/
def SENSITIVE_DIRS_LOWER : List Str :=
  [lit "/.ssh/", lit "/.aws/", lit "/.gnupg/", lit "/.kube/"]

/-- Final path component, modelling Path::file_name of the Rust standard
library on Unix paths: the last normal component, with trailing separators and
current-directory components ignored, and none when the path ends in a
parent-directory component or has no normal component. -/
def fileName (p : Str) : Option Str :=
  let comps := (splitOnPred (fun c => c == '/') p).filter
    (fun c => !c.isEmpty && c != lit ".")
  match comps.getLast? with
  | none => none
  | some c => if c == lit ".." then none else some c

/-- Sensitive file detector state, from detector.rs. -/
structure SensitiveFileDetector where
  patterns : List Str
  customPaths : List Str

/-- Default sensitive file patterns, from detector.rs. -/
def defaultSensitivePatterns : List Str :=
  [lit ".env", lit ".env.*", lit "*.env",
   lit "*.pem", lit "*.key", lit "*.p12", lit "*.pfx",
   lit "id_rsa", lit "id_ed25519", lit "id_ecdsa", lit "id_dsa",
   lit "*credential*", lit "*secret*", lit "*password*", lit "*token*",
   lit ".netrc", lit ".npmrc", lit ".pypirc",
   lit "credentials", lit "credentials.json",
   lit "aws_access_key*",
   lit "*.sqlite", lit "*.db"]

/-- Function SensitiveFileDetector::matches_pattern: custom paths, then the
basename against the globs, then the full path against the globs, then the
case-insensitive sensitive directory fragments. -/
def matchesPattern (d : SensitiveFileDetector) (path : Str) : Bool :=
  d.customPaths.contains path ||
  (match fileName path with
   | some filename => d.patterns.any (fun pat => globMatch pat filename)
   | none => false) ||
  d.patterns.any (fun pat => globMatch pat path) ||
  (let pathLower := toLowerStr path
   SENSITIVE_DIRS_LOWER.any (fun dir => containsSub pathLower dir))

/-- Function SensitiveFileDetector::is_sensitive.  Symlink resolution is an
effect of the file system, passed in as a partial function; a resolution
failure (broken symlink) is the none case. -/
def isSensitive (d : SensitiveFileDetector) (canonicalize : Str → Option Str)
    (path : Str) : Bool :=
  matchesPattern d path ||
  (match canonicalize path with
   | some resolved => resolved != path && matchesPattern d resolved
   | none => false)

/-- Function SensitiveFileDetector::risk_level. -/
def detectorRiskLevel (d : SensitiveFileDetector) (canonicalize : Str → Option Str)
    (path : Str) : RiskLevel :=
  if isSensitive d canonicalize path then RiskLevel.Critical else RiskLevel.Low

/-- Predicate written from the wording of the specification contract for the
sensitive-path classifier, for comparison with the source translation: the
disjunction of custom path match, basename glob match, full path glob match,
case-insensitive directory fragment containment, and the same four rules on a
differing symlink-resolved path, with a broken symlink contributing false. -/
def specSensitive (d : SensitiveFileDetector) (canonicalize : Str → Option Str)
    (path : Str) : Prop :=
  let rules14 : Str → Prop := fun p =>
    p ∈ d.customPaths ∨
    (∃ b, fileName p = some b ∧ ∃ pat ∈ d.patterns, globMatch pat b = true) ∨
    (∃ pat ∈ d.patterns, globMatch pat p = true) ∨
    (∃ dir ∈ SENSITIVE_DIRS_LOWER, containsSub (toLowerStr p) dir = true)
  rules14 path ∨
  (∃ r, canonicalize path = some r ∧ r ≠ path ∧ rules14 r)

/-- Line of wrapper.rs ProcessWrapper::detect_command that extracts the text
after the prompt marker, tried in the order dollar, percent, angle. -/
def commandPart (l : Str) : Option Str :=
  match rfindSub l (lit "$ ") with
  | some pos => some (l.drop (pos + 2))
  | none =>
    match rfindSub l (lit "% ") with
    | some pos => some (l.drop (pos + 2))
    | none =>
      match rfindSub l (lit "> ") with
      | some pos =>
        if pos == 0 || (((l.get? (pos - 1)).map Char.isWhitespace).getD true) then
          some (l.drop (pos + 2))
        else none
      | none => none

/-- Function ProcessWrapper::detect_command from wrapper.rs. -/
def detectCommand (line : Str) : Option (Str × List Str) :=
  let l := trimStr line
  if l.isEmpty || (lit "#").isPrefixOf l || (lit "//").isPrefixOf l
      || (lit "/*").isPrefixOf l then
    none
  else
    match commandPart l with
    | none => none
    | some cp =>
      match splitWhitespace cp with
      | [] => none
      | cmd :: rest => some (cmd, rest)

/-- Checked duration subtraction, modelling Duration::checked_sub on durations
measured in nanoseconds. -/
def checkedSub (a b : Nat) : Option Nat :=
  if b ≤ a then some (a - b) else none

/-- Sleep duration of one iteration of NetworkMonitor::monitor_loop in
netmon.rs: the poll interval minus the elapsed time when that is nonnegative,
otherwise no sleep. -/
def netmonSleep (pollInterval elapsed : Nat) : Nat :=
  match checkedSub pollInterval elapsed with
  | some remaining => remaining
  | none => 0

/-- Sleep duration of one iteration of ProcessTracker::tracking_loop in
process_tracker.rs: the loop sleeps for the full poll interval. -/
def trackerSleep (pollInterval : Nat) (_elapsed : Nat) : Nat :=
  pollInterval

/-- Session lifecycle state of the monitoring engine, from ffi.rs. -/
inductive SessionState
  | Idle
  | Starting
  | Active
  | Stopping
deriving DecidableEq

/-- Debug rendering of a session state, as produced by the derived Debug
formatting that the error messages of ffi.rs interpolate. -/
def SessionState.debugName : SessionState → Str
  | .Idle => lit "Idle"
  | .Starting => lit "Starting"
  | .Active => lit "Active"
  | .Stopping => lit "Stopping"

/-- Outcomes of the effectful steps of FfiMonitoringEngine::start_session,
passed in explicitly: configuration load, log directory resolution, session
logger creation, session header write, the generated session id, and the pids
of the detected agent processes. -/
structure StartEnv where
  configLoad : Except Str Unit
  logDirLoad : Except Str Unit
  loggerCreate : Except Str Unit
  headerWrite : Except Str Unit
  sessionId : Str
  detectedAgents : List Nat

/-- Error message of start_session for an illegal state transition. -/
def startSessionErrMsg (s : SessionState) : Str :=
  lit "Cannot start session: engine is in " ++ s.debugName ++ lit " state"

/-- Error message of stop_session for an illegal state transition. -/
def stopSessionErrMsg (s : SessionState) : Str :=
  lit "Cannot stop session: engine is in " ++ s.debugName ++ lit " state"

/-- Function FfiMonitoringEngine::start_session: guarded by the state, with
every failure path rolling the state back to Idle.  The returned pair is the
final state and the result. -/
def startSession (state : SessionState) (env : StartEnv) :
    SessionState × Except Str Str :=
  if state != SessionState.Idle then
    (state, Except.error (startSessionErrMsg state))
  else
    match env.configLoad with
    | .error e => (SessionState.Idle, Except.error e)
    | .ok _ =>
      match env.logDirLoad with
      | .error e => (SessionState.Idle, Except.error e)
      | .ok _ =>
        match env.loggerCreate with
        | .error e =>
          (SessionState.Idle,
           Except.error (lit "Failed to create session logger: " ++ e))
        | .ok _ =>
          match env.headerWrite with
          | .error e =>
            (SessionState.Idle,
             Except.error (lit "Failed to write session header: " ++ e))
          | .ok _ =>
            if env.detectedAgents.isEmpty then
              (SessionState.Idle,
               Except.error (lit "No AI agents detected. Start an AI agent (Claude, Cursor, Copilot, etc.) before monitoring."))
            else
              (SessionState.Active, Except.ok env.sessionId)

/-- Session end marker written by SessionLogger::write_session_footer in
storage.rs, with the field values it serializes. -/
structure SessionFooter where
  sessionId : Str
  sessionEnd : Nat
  eventCount : Nat
  exitCode : Option Int
deriving DecidableEq

/-- Function SessionLogger::write_session_footer: the footer records exactly
the exit code argument it is given. -/
def writeSessionFooter (sessionId : Str) (sessionEnd eventCount : Nat)
    (exitCode : Option Int) : SessionFooter :=
  { sessionId := sessionId
    sessionEnd := sessionEnd
    eventCount := eventCount
    exitCode := exitCode }

/-- Function FfiMonitoringEngine::stop_session: guarded by the state; on the
success path it tears the session down and writes a footer, passing the
constant value zero as the exit code.  The third component is the footer
content written, none when no footer line is produced. -/
def stopSession (state : SessionState) (sessionId : Str)
    (sessionEnd eventCount : Nat) :
    SessionState × Except Str Unit × Option SessionFooter :=
  if state != SessionState.Active then
    (state, Except.error (stopSessionErrMsg state), none)
  else
    (SessionState.Idle, Except.ok (),
     some (writeSessionFooter sessionId sessionEnd eventCount (some 0)))

/-- Claim C8: every event built by Event::new or any of its wrapper
constructors has its alert flag set exactly when its risk level is High or
Critical; no constructor takes the alert flag as an input. -/
theorem c8_alert_iff_risk_at_least_high (id ts : Nat) (et : EventType)
    (proc : Str) (pid : Nat) (rl : RiskLevel) (cmd : Str) (args : List Str)
    (ppid : Option Nat) :
    ((Event.new id ts et proc pid rl).alert = true ↔
      RiskLevel.High ≤ (Event.new id ts et proc pid rl).riskLevel)
    ∧ ((Event.command id ts cmd args proc pid rl).alert = true ↔
      RiskLevel.High ≤ (Event.command id ts cmd args proc pid rl).riskLevel)
    ∧ ((Event.sessionStart id ts proc pid).alert = true ↔
      RiskLevel.High ≤ (Event.sessionStart id ts proc pid).riskLevel)
    ∧ ((Event.sessionEnd id ts proc pid).alert = true ↔
      RiskLevel.High ≤ (Event.sessionEnd id ts proc pid).riskLevel)
    ∧ ((Event.processStart id ts proc pid ppid rl).alert = true ↔
      RiskLevel.High ≤ (Event.processStart id ts proc pid ppid rl).riskLevel)
    ∧ ((Event.processExit id ts proc pid ppid).alert = true ↔
      RiskLevel.High ≤ (Event.processExit id ts proc pid ppid).riskLevel) := by
  have key : ∀ (et : EventType) (rl : RiskLevel),
      ((Event.new id ts et proc pid rl).alert = true ↔
        RiskLevel.High ≤ (Event.new id ts et proc pid rl).riskLevel) := by
    intro et rl
    cases rl <;> simp [Event.new] <;> decide
  exact ⟨key _ _, key _ _, key _ _, key _ _, key _ _, key _ _⟩

/-- Claim C7 counterexample: the process tracker loop sleeps the full poll
interval, not the poll interval minus the elapsed time of the iteration. -/
theorem c7_tracker_sleep_counterexample :
    trackerSleep 100 30 = 100 ∧ trackerSleep 100 30 ≠ 100 - 30 ∧
    netmonSleep 100 30 = 100 - 30 := by decide

/-- Claim C7 (amended): only the network poller sleeps for the poll interval
minus the elapsed time of the completed iteration, floored at zero; the
process tracker always sleeps the full poll interval. -/
theorem c7_poll_sleep_amended (pollInterval elapsed : Nat) :
    netmonSleep pollInterval elapsed = pollInterval - elapsed
    ∧ (pollInterval ≤ elapsed → netmonSleep pollInterval elapsed = 0)
    ∧ trackerSleep pollInterval elapsed = pollInterval := by
  refine ⟨?_, ?_, rfl⟩
  · by_cases h : elapsed ≤ pollInterval
    · simp [netmonSleep, checkedSub, h]
    · simp [netmonSleep, checkedSub, h]
      omega
  · intro h
    by_cases h2 : elapsed ≤ pollInterval
    · simp [netmonSleep, checkedSub, h2]
      omega
    · simp [netmonSleep, checkedSub, h2]

/-- Witness for C7: the amended statement evaluated at a concrete overrun
iteration. -/
theorem c7_poll_sleep_amended_witness : netmonSleep 2 5 = 0 :=
  (c7_poll_sleep_amended 2 5).2.1 (by decide)

/-- Claim C10: a successful stop_session writes a footer whose exit code is
the constant zero that the engine passes to write_session_footer, and the
footer records exactly the exit code it is handed. -/
theorem c10_footer_exit_code_zero (s : SessionState) (sid : Str)
    (sessionEnd eventCount : Nat) :
    ((stopSession s sid sessionEnd eventCount).2.1.isOk = true →
      (stopSession s sid sessionEnd eventCount).2.2 =
        some (writeSessionFooter sid sessionEnd eventCount (some 0)))
    ∧ (∀ f, (stopSession s sid sessionEnd eventCount).2.2 = some f →
      f.exitCode = some 0) := by
  cases s <;> simp [stopSession, writeSessionFooter, Except.isOk, Except.toBool]

/-- Witness for C10: a stop from the Active state at concrete values. -/
theorem c10_footer_exit_code_zero_witness :
    (stopSession SessionState.Active (lit "s") 7 3).2.2 =
      some (writeSessionFooter (lit "s") 7 3 (some 0)) :=
  (c10_footer_exit_code_zero SessionState.Active (lit "s") 7 3).1 (by decide)

/-- Claim C4: the two-generation dedup cache reports containment over the
union of both generations, rotates exactly when the size bound is positive
and exceeded after an insert, never rotates when the bound is zero, and keeps
three distinct connections visible after inserting them with a bound of two. -/
theorem c4_dedup_cache_generations :
    (∀ (cache : SeenConnectionsCache) (c : TrackedConnection),
      cache.containsConn c = true ↔ c ∈ cache.current ∨ c ∈ cache.previous)
    ∧ (∀ (cache : SeenConnectionsCache) (c : TrackedConnection),
      cache.maxSize > 0 → (setInsert cache.current c).length > cache.maxSize →
      (cache.insertConn c).current = [] ∧
      (cache.insertConn c).previous = setInsert cache.current c)
    ∧ (∀ (cache : SeenConnectionsCache) (c : TrackedConnection),
      cache.maxSize = 0 →
      (cache.insertConn c).current = setInsert cache.current c ∧
      (cache.insertConn c).previous = cache.previous)
    ∧ (∀ (cache : SeenConnectionsCache) (c : TrackedConnection),
      ¬ (cache.maxSize > 0 ∧ (setInsert cache.current c).length > cache.maxSize) →
      (cache.insertConn c).current = setInsert cache.current c ∧
      (cache.insertConn c).previous = cache.previous)
    ∧ (let a : TrackedConnection := ⟨1, lit "a.com", 80, lit "tcp"⟩
       let b : TrackedConnection := ⟨1, lit "b.com", 80, lit "tcp"⟩
       let c : TrackedConnection := ⟨1, lit "c.com", 80, lit "tcp"⟩
       let cache := (((SeenConnectionsCache.make 2).insertConn a).insertConn b).insertConn c
       cache.containsConn a = true ∧ cache.containsConn b = true ∧
       cache.containsConn c = true) := by
  refine ⟨?_, ?_, ?_, ?_, by decide⟩
  · intro cache c
    simp [SeenConnectionsCache.containsConn]
  · intro cache c h1 h2
    simp [SeenConnectionsCache.insertConn, h1, h2]
  · intro cache c h
    simp [SeenConnectionsCache.insertConn, h]
  · intro cache c h
    by_cases h1 : cache.maxSize > 0
    · have h2 : ¬ (setInsert cache.current c).length > cache.maxSize :=
        fun h2 => h ⟨h1, h2⟩
      simp [SeenConnectionsCache.insertConn, h1, h2]
    · simp [SeenConnectionsCache.insertConn, h1]

/-- Witness for C4: the rotation branch at a concrete cache and connection. -/
theorem c4_dedup_cache_generations_witness :
    ((⟨[⟨1, lit "a.com", 80, lit "tcp"⟩], [], 1⟩ : SeenConnectionsCache).insertConn
        ⟨2, lit "b.com", 80, lit "tcp"⟩).current = [] ∧
    ((⟨[⟨1, lit "a.com", 80, lit "tcp"⟩], [], 1⟩ : SeenConnectionsCache).insertConn
        ⟨2, lit "b.com", 80, lit "tcp"⟩).previous =
      setInsert [⟨1, lit "a.com", 80, lit "tcp"⟩] ⟨2, lit "b.com", 80, lit "tcp"⟩ :=
  c4_dedup_cache_generations.2.1 ⟨[⟨1, lit "a.com", 80, lit "tcp"⟩], [], 1⟩
    ⟨2, lit "b.com", 80, lit "tcp"⟩ (by decide) (by decide)

/-- Claim C3: a token equal (case-insensitively) to a sensitive next-arg flag
causes the immediately following token to be replaced by the mask wholesale,
without re-inspection by any later rule, and the scenario argv sanitizes to
the expected masked argv. -/
theorem c3_next_arg_flag_masking :
    (∀ (f v : Str) (rest : List Str),
      SENSITIVE_FLAGS_LOWER.contains (toLowerStr f) = true →
      sanitizeArgs (f :: v :: rest) = f :: MASK :: sanitizeAux false rest)
    ∧ sanitizeArgs [lit "-p", lit "sk-ant-xxx"] = [lit "-p", lit "***"]
    ∧ sanitizeArgs
        [lit "--password", lit "hunter2", lit "--token=abc",
         lit "sk-ant-api03-xxx", lit "Bearer eyJ…"] =
      [lit "--password", lit "***", lit "--token=***", lit "sk-ant-***",
       lit "Bearer ***"] := by
  refine ⟨?_, by decide, by decide⟩
  intro f v rest h
  have h2 : toLowerStr f ∈ SENSITIVE_FLAGS_LOWER := by simpa using h
  simp [sanitizeArgs, sanitizeAux, h2]

/-- Witness for C3: the next-arg masking applied to a concrete flag and a
value that would otherwise be rewritten by a token-shape rule. -/
theorem c3_next_arg_flag_masking_witness :
    sanitizeArgs [lit "-p", lit "sk-ant-secret"] =
      lit "-p" :: MASK :: sanitizeAux false [] :=
  c3_next_arg_flag_masking.1 (lit "-p") (lit "sk-ant-secret") [] (by decide)

/-- Claim C5: start_session rejects any non-Idle state and stop_session any
non-Active state with an error naming the current state, and every failure
path inside start_session (configuration load, log directory resolution,
logger creation, header write, or empty agent detection) leaves the final
state Idle. -/
theorem c5_session_state_machine_guards :
    (∀ (s : SessionState) (env : StartEnv), s ≠ SessionState.Idle →
      startSession s env = (s, Except.error (startSessionErrMsg s)) ∧
      containsSub (startSessionErrMsg s) s.debugName = true)
    ∧ (∀ (s : SessionState) (sid : Str) (sessionEnd eventCount : Nat),
      s ≠ SessionState.Active →
      stopSession s sid sessionEnd eventCount =
        (s, Except.error (stopSessionErrMsg s), none) ∧
      containsSub (stopSessionErrMsg s) s.debugName = true)
    ∧ (∀ env : StartEnv, (startSession SessionState.Idle env).2.isOk = false →
      (startSession SessionState.Idle env).1 = SessionState.Idle)
    ∧ (∀ env : StartEnv, env.detectedAgents = [] →
      (startSession SessionState.Idle env).1 = SessionState.Idle ∧
      (startSession SessionState.Idle env).2.isOk = false) := by
  refine ⟨?_, ?_, ?_, ?_⟩
  · intro s env hs
    cases s
    · exact absurd rfl hs
    · exact ⟨rfl, by decide⟩
    · exact ⟨rfl, by decide⟩
    · exact ⟨rfl, by decide⟩
  · intro s sid sessionEnd eventCount hs
    cases s
    · exact ⟨rfl, by decide⟩
    · exact ⟨rfl, by decide⟩
    · exact absurd rfl hs
    · exact ⟨rfl, by decide⟩
  · intro env h
    obtain ⟨cl, ld, lc, hw, sid, ags⟩ := env
    cases cl <;> cases ld <;> cases lc <;> cases hw <;>
      simp_all [startSession, Except.isOk, Except.toBool]
    by_cases hA : ags = []
    · simp [hA]
    · simp [hA] at h
  · intro env h
    obtain ⟨cl, ld, lc, hw, sid, ags⟩ := env
    have hA : ags = [] := h
    subst hA
    cases cl <;> cases ld <;> cases lc <;> cases hw <;>
      simp_all [startSession, Except.isOk, Except.toBool]

/-- Witness for C5: the guards evaluated at an Active engine and at an
environment whose agent detection comes back empty. -/
theorem c5_session_state_machine_guards_witness :
    (startSession SessionState.Active
        ⟨Except.ok (), Except.ok (), Except.ok (), Except.ok (), lit "sid", [42]⟩ =
      (SessionState.Active, Except.error (startSessionErrMsg SessionState.Active)) ∧
      containsSub (startSessionErrMsg SessionState.Active)
        SessionState.Active.debugName = true) ∧
    (startSession SessionState.Idle
        ⟨Except.ok (), Except.ok (), Except.ok (), Except.ok (), lit "sid", []⟩).1 =
      SessionState.Idle :=
  ⟨c5_session_state_machine_guards.1 SessionState.Active
      ⟨Except.ok (), Except.ok (), Except.ok (), Except.ok (), lit "sid", [42]⟩
      (by decide),
   (c5_session_state_machine_guards.2.2.2
      ⟨Except.ok (), Except.ok (), Except.ok (), Except.ok (), lit "sid", []⟩
      rfl).1⟩

/-- Claim C6 counterexample: on a line containing both a dollar marker and a
later percent marker, detect_command takes the text after the dollar marker,
not the text after the final marker of any kind. -/
theorem c6_last_marker_counterexample :
    detectCommand (lit "$ a % b") = some (lit "a", [lit "%", lit "b"]) ∧
    detectCommand (lit "$ a % b") ≠ some (lit "b", []) := by decide

/-- Claim C6 (amended): detect_command trims the line, rejects empty and
comment lines, and then tries the three prompt markers in priority order
dollar, then percent, then angle, each at its last occurrence; the angle form
additionally requires line start or a preceding whitespace character and
otherwise yields none without falling back; none is returned when no marker
is present. -/
theorem c6_detect_command_amended :
    (∀ line : Str, trimStr line = [] → detectCommand line = none)
    ∧ (∀ line : Str, (lit "#").isPrefixOf (trimStr line) = true →
        detectCommand line = none)
    ∧ (∀ line : Str, (lit "//").isPrefixOf (trimStr line) = true →
        detectCommand line = none)
    ∧ (∀ line : Str, (lit "/*").isPrefixOf (trimStr line) = true →
        detectCommand line = none)
    ∧ (∀ line : Str,
        rfindSub (trimStr line) (lit "$ ") = none →
        rfindSub (trimStr line) (lit "% ") = none →
        rfindSub (trimStr line) (lit "> ") = none →
        detectCommand line = none)
    ∧ (∀ (line : Str) (pos : Nat),
        (trimStr line).isEmpty = false →
        (lit "#").isPrefixOf (trimStr line) = false →
        (lit "//").isPrefixOf (trimStr line) = false →
        (lit "/*").isPrefixOf (trimStr line) = false →
        rfindSub (trimStr line) (lit "$ ") = some pos →
        detectCommand line =
          (match splitWhitespace ((trimStr line).drop (pos + 2)) with
           | [] => none
           | cmd :: rest => some (cmd, rest)))
    ∧ (∀ (line : Str) (pos : Nat),
        (trimStr line).isEmpty = false →
        (lit "#").isPrefixOf (trimStr line) = false →
        (lit "//").isPrefixOf (trimStr line) = false →
        (lit "/*").isPrefixOf (trimStr line) = false →
        rfindSub (trimStr line) (lit "$ ") = none →
        rfindSub (trimStr line) (lit "% ") = some pos →
        detectCommand line =
          (match splitWhitespace ((trimStr line).drop (pos + 2)) with
           | [] => none
           | cmd :: rest => some (cmd, rest)))
    ∧ (∀ (line : Str) (pos : Nat),
        (trimStr line).isEmpty = false →
        (lit "#").isPrefixOf (trimStr line) = false →
        (lit "//").isPrefixOf (trimStr line) = false →
        (lit "/*").isPrefixOf (trimStr line) = false →
        rfindSub (trimStr line) (lit "$ ") = none →
        rfindSub (trimStr line) (lit "% ") = none →
        rfindSub (trimStr line) (lit "> ") = some pos →
        detectCommand line =
          (if pos == 0 ||
              ((((trimStr line).get? (pos - 1)).map Char.isWhitespace).getD true) then
            (match splitWhitespace ((trimStr line).drop (pos + 2)) with
             | [] => none
             | cmd :: rest => some (cmd, rest))
          else none))
    ∧ detectCommand (lit "a > b") = some (lit "b", [])
    ∧ detectCommand (lit "a> b") = none := by
  refine ⟨?_, ?_, ?_, ?_, ?_, ?_, ?_, ?_, by decide, by decide⟩
  · intro line h
    simp [detectCommand, h]
  · intro line h
    simp [detectCommand, h]
  · intro line h
    simp [detectCommand, h]
  · intro line h
    simp [detectCommand, h]
  · intro line h1 h2 h3
    simp [detectCommand, commandPart, h1, h2, h3]
  · intro line pos hne h1 h2 h3 hd
    simp [detectCommand, commandPart, hne, h1, h2, h3, hd]
  · intro line pos hne h1 h2 h3 hd hp
    simp [detectCommand, commandPart, hne, h1, h2, h3, hd, hp]
  · intro line pos hne h1 h2 h3 hd hp hg
    simp only [detectCommand, commandPart, hne, h1, h2, h3, hd, hp, hg,
      Bool.false_eq_true, Bool.or_self, if_false]
    by_cases hC :
        pos = 0 ∨ (Option.map Char.isWhitespace (trimStr line)[pos - 1]?).getD true = true
    · simp [hC]
    · simp [hC]

/-- Witness for C6: the amended priority rule applied to a concrete line with
both kinds of marker. -/
theorem c6_detect_command_amended_witness :
    detectCommand (lit "$ a % b") =
      (match splitWhitespace ((trimStr (lit "$ a % b")).drop (0 + 2)) with
       | [] => none
       | cmd :: rest => some (cmd, rest)) :=
  c6_detect_command_amended.2.2.2.2.2.1 (lit "$ a % b") 0 (by decide) (by decide)
    (by decide) (by decide) (by decide)

/-- Claim C1 counterexample: a wget pipeline into sh is scored Medium by the
default rules, because the catalogue has no pipe rule for the wget and sh
pair; the claim expects Critical for this input. -/
theorem c1_wget_sh_counterexample :
    RiskScorer.make.score (lit "wget") [lit "https://x/s.sh", lit "|", lit "sh"] =
      (RiskLevel.Medium, some (lit "Network download")) ∧
    (RiskScorer.make.score (lit "wget")
      [lit "https://x/s.sh", lit "|", lit "sh"]).1 ≠ RiskLevel.Critical := by
  refine ⟨by decide, ?_⟩
  intro h
  exact absurd h (by decide)

/-- Claim C1 (amended): when no custom high-risk prefix matches, the command
is neither rm nor chmod, and the joined command string contains a pipe
character together with curl and bash, or wget and bash, or curl and sh, the
scorer returns Critical with a reason describing piping a remote script to a
shell; the curl pipeline into bash example scores Critical with that reason. -/
theorem c1_pipeline_critical_amended (custom : List Str) (command : Str)
    (args : List Str)
    (h1 : ∀ c ∈ custom, c.isPrefixOf (fullCommandStr command args) = false)
    (h2 : containsSub (fullCommandStr command args) (lit "|") = true)
    (h3 : (containsSub (fullCommandStr command args) (lit "curl") = true ∧
           containsSub (fullCommandStr command args) (lit "bash") = true) ∨
          (containsSub (fullCommandStr command args) (lit "wget") = true ∧
           containsSub (fullCommandStr command args) (lit "bash") = true) ∨
          (containsSub (fullCommandStr command args) (lit "curl") = true ∧
           containsSub (fullCommandStr command args) (lit "sh") = true))
    (h4 : command ≠ lit "rm") (h5 : command ≠ lit "chmod") :
    (({ rules := defaultRules, customHighRisk := custom } : RiskScorer).score
        command args).1 = RiskLevel.Critical ∧
    containsSub
      ((({ rules := defaultRules, customHighRisk := custom } : RiskScorer).score
          command args).2.getD [])
      (lit "Piping remote script to shell") = true ∧
    RiskScorer.make.score (lit "curl") [lit "https://x/s.sh", lit "|", lit "bash"] =
      (RiskLevel.Critical, some (lit "Piping remote script to shell (curl | bash)")) := by
  have hrm : (command == lit "rm") = false := beq_eq_false_iff_ne.mpr h4
  have hchmod : (command == lit "chmod") = false := beq_eq_false_iff_ne.mpr h5
  have hcustom : custom.find?
      (fun c => c.isPrefixOf (fullCommandStr command args)) = none := by
    apply List.find?_eq_none.mpr
    intro c hc
    simp [h1 c hc]
  refine ?_
  simp only [RiskScorer.score, hcustom]
  simp only [defaultRules, List.filter, matchesRule, hrm, hchmod, Bool.false_and,
    firstMatchingRule]
  by_cases m5 : (containsSub (fullCommandStr command args) (lit "curl") &&
      containsSub (fullCommandStr command args) (lit "|") &&
      containsSub (fullCommandStr command args) (lit "bash")) = true
  · simp [m5]
    decide
  · by_cases m6 : (containsSub (fullCommandStr command args) (lit "wget") &&
        containsSub (fullCommandStr command args) (lit "|") &&
        containsSub (fullCommandStr command args) (lit "bash")) = true
    · simp [m5, m6]
      decide
    · by_cases m7 : (containsSub (fullCommandStr command args) (lit "curl") &&
          containsSub (fullCommandStr command args) (lit "|") &&
          containsSub (fullCommandStr command args) (lit "sh")) = true
      · simp [m5, m6, m7]
        decide
      · exfalso
        simp only [Bool.and_eq_true, not_and] at m5 m6 m7
        rcases h3 with ⟨hc, hb⟩ | ⟨hw, hb⟩ | ⟨hc, hs⟩
        · exact absurd hb (m5 ⟨hc, h2⟩)
        · exact absurd hb (m6 ⟨hw, h2⟩)
        · exact absurd hs (m7 ⟨hc, h2⟩)

/-- Witness for C1: the amended statement at the concrete curl pipeline. -/
theorem c1_pipeline_critical_amended_witness :
    (({ rules := defaultRules, customHighRisk := [] } : RiskScorer).score
        (lit "curl") [lit "https://x/s.sh", lit "|", lit "bash"]).1 =
      RiskLevel.Critical :=
  (c1_pipeline_critical_amended [] (lit "curl") [lit "https://x/s.sh", lit "|", lit "bash"]
    (by intro c hc; cases hc) (by decide) (Or.inl ⟨by decide, by decide⟩)
    (by decide) (by decide)).1

/-- Helper: the four-stage pattern test of the sensitive file detector,
phrased as the corresponding disjunction of propositions. -/
theorem matchesPattern_iff_rules (d : SensitiveFileDetector) (p : Str) :
    matchesPattern d p = true ↔
      (p ∈ d.customPaths ∨
       (∃ b, fileName p = some b ∧ ∃ pat ∈ d.patterns, globMatch pat b = true) ∨
       (∃ pat ∈ d.patterns, globMatch pat p = true) ∨
       (∃ dir ∈ SENSITIVE_DIRS_LOWER, containsSub (toLowerStr p) dir = true)) := by
  rcases hf : fileName p with _ | b <;>
    simp [matchesPattern, hf, List.any_eq_true, or_assoc]

/-- Claim C2: is_sensitive holds exactly when one of the five contract rules
holds (custom path, basename glob, full path glob, case-insensitive sensitive
directory fragment, or the same rules on a differing resolved path, with a
broken symlink contributing false), and risk_level maps sensitive to Critical
and everything else to Low. -/
theorem c2_is_sensitive_contract (d : SensitiveFileDetector)
    (canonicalize : Str → Option Str) (p : Str) :
    (isSensitive d canonicalize p = true ↔ specSensitive d canonicalize p)
    ∧ (detectorRiskLevel d canonicalize p = RiskLevel.Critical ↔
      isSensitive d canonicalize p = true)
    ∧ (detectorRiskLevel d canonicalize p = RiskLevel.Low ↔
      isSensitive d canonicalize p = false) := by
  refine ⟨?_, ?_, ?_⟩
  · rcases hc : canonicalize p with _ | r
    · simp [isSensitive, specSensitive, hc, matchesPattern_iff_rules]
    · by_cases hr : r = p
      · simp [isSensitive, specSensitive, hc, hr, matchesPattern_iff_rules]
      · simp [isSensitive, specSensitive, hc, hr, matchesPattern_iff_rules,
          bne_iff_ne]
  · by_cases hs : isSensitive d canonicalize p = true
    · simp [detectorRiskLevel, hs]
    · simp [detectorRiskLevel, hs]
  · by_cases hs : isSensitive d canonicalize p = true
    · simp [detectorRiskLevel, hs]
    · rw [Bool.not_eq_true] at hs
      simp [detectorRiskLevel, hs]

/-- Helper: packing a valid codepoint and unpacking it is the identity. -/
theorem charToNat_ofNat_valid (n : Nat) (h : n.isValidChar) :
    (Char.ofNat n).toNat = n := by
  unfold Char.ofNat
  rw [dif_pos h]
  rfl

/-- Helper: lowercasing can only produce a character below code 65 when the
input already is that character, since the case shift lands in 97 to 122. -/
theorem toLower_eq_low {c x : Char} (hx : x.toNat < 65) (h : c.toLower = x) :
    c = x := by
  unfold Char.toLower at h
  by_cases hc : c.toNat ≥ 65 ∧ c.toNat ≤ 90
  · rw [if_pos hc] at h
    have h2 : (Char.ofNat (c.toNat + 32)).toNat = c.toNat + 32 :=
      charToNat_ofNat_valid _ (Or.inl (by omega))
    rw [h] at h2
    omega
  · rw [if_neg hc] at h
    exact h

/-- Helper: characters below code 65 are fixed by lowercasing. -/
theorem toLower_self_low {x : Char} (hx : x.toNat < 65) : x.toLower = x := by
  unfold Char.toLower
  rw [if_neg (by omega)]

/-- Helper: lowercasing distributes over concatenation. -/
theorem toLowerStr_append (a b : Str) :
    toLowerStr (a ++ b) = toLowerStr a ++ toLowerStr b :=
  List.map_append Char.toLower a b

/-- Helper: the first position of a character after a separator-free block. -/
theorem findChar_append_sep (xs rest : Str) (c : Char)
    (h : ∀ d ∈ xs, d ≠ c) : findChar (xs ++ c :: rest) c = some xs.length := by
  induction xs with
  | nil => simp [findChar]
  | cons d t ih =>
    have hd : (d == c) = false := beq_eq_false_iff_ne.mpr (h d (by simp))
    have ht := ih (fun e he => h e (List.mem_cons_of_mem _ he))
    simp [findChar, hd, ht]

/-- Helper: a successful character search decomposes the string at the first
occurrence. -/
theorem findChar_decomp (a : Str) (c : Char) (j : Nat)
    (h : findChar a c = some j) :
    ∃ xs rest, a = xs ++ c :: rest ∧ xs.length = j ∧ ∀ d ∈ xs, d ≠ c := by
  induction a generalizing j with
  | nil => simp [findChar] at h
  | cons d t ih =>
    by_cases hd : d = c
    · subst hd
      simp only [findChar, beq_self_eq_true, if_true, Option.some.injEq] at h
      exact ⟨[], t, by simp, by simp [h.symm], by simp⟩
    · have hbeq : (d == c) = false := beq_eq_false_iff_ne.mpr hd
      rw [show findChar (d :: t) c =
        (findChar t c).map (fun i => i + 1) by simp [findChar, hbeq]] at h
      rw [Option.map_eq_some'] at h
      obtain ⟨i, hi, hij⟩ := h
      obtain ⟨xs, rest, hxs, hlen, hfree⟩ := ih i hi
      refine ⟨d :: xs, rest, by simp [hxs], by simp [hlen, hij.symm], ?_⟩
      intro e he
      rcases List.mem_cons.mp he with rfl | he
      · exact hd
      · exact hfree e he

/-- Helper: a substring that is nowhere contained is also not found. -/
theorem findSub_eq_none_of_not_contains (s pat : Str)
    (h : containsSub s pat = false) : findSub s pat = none := by
  induction s with
  | nil =>
    simp only [containsSub, List.isEmpty_eq_true] at h
    simp [findSub, h]
  | cons c t ih =>
    simp only [containsSub, Bool.or_eq_false_iff] at h
    simp [findSub, h.1, ih h.2]

/-- Helper: firstM over the option monad yields an element of the list. -/
theorem firstM_eq_some {α β : Type} (f : α → Option β) (l : List α) (y : β)
    (h : l.firstM f = some y) : ∃ x ∈ l, f x = some y := by
  induction l with
  | nil => simp [List.firstM] at h
  | cons x xs ih =>
    rcases hx : f x with _ | b
    · simp only [List.firstM, hx, Option.none_orElse] at h
      obtain ⟨z, hz, hfz⟩ := ih h
      exact ⟨z, List.mem_cons_of_mem _ hz, hfz⟩
    · simp only [List.firstM, hx, Option.some_orElse] at h
      exact ⟨x, by simp, by rw [hx, h]⟩

/-- Helper: a guarded constant firstM returns the constant as soon as some
guard holds. -/
theorem firstM_guard_const {α β : Type} (f : α → Bool) (y : Option β)
    (l : List α) (hx : ∃ x ∈ l, f x = true) :
    (l.firstM fun x => if f x then y else none) = y := by
  induction l with
  | nil => simp at hx
  | cons x xs ih =>
    obtain ⟨z, hz, hfz⟩ := hx
    rcases List.mem_cons.mp hz with rfl | hz2
    · rcases y with _ | b
      · simp only [List.firstM, hfz, if_true, Option.none_orElse]
        clear ih
        induction xs with
        | nil => rfl
        | cons w ws ihw =>
          simp only [List.firstM]
          rcases hw : (if f w then (none : Option β) else none) with _ | b
          · simpa [hw] using ihw
          · simp [ite_eq_iff] at hw
      · simp [List.firstM, hfz]
    · rcases hcur : (if f x then y else none) with _ | b
      · simp only [List.firstM, hcur, Option.none_orElse]
        exact ih ⟨z, hz2, hfz⟩
      · rcases hfx : f x with _ | _
        · simp [hfx] at hcur
        · simp only [hfx, if_true] at hcur
          simp [List.firstM, hcur, hfx]

/-- Helper: a guarded constant firstM returns none or the constant. -/
theorem firstM_guard_shape {α β : Type} (f : α → Bool) (y : Option β)
    (l : List α) :
    (l.firstM fun x => if f x then y else none) = none ∨
    (l.firstM fun x => if f x then y else none) = y := by
  induction l with
  | nil => exact Or.inl rfl
  | cons x xs ih =>
    rcases hfx : f x with _ | _
    · simpa [List.firstM, hfx] using ih
    · rcases y with _ | b
      · simpa [List.firstM, hfx] using ih
      · simp [List.firstM, hfx]

/-- Helper: a guarded constant firstM with all guards failing returns none. -/
theorem firstM_guard_none {α β : Type} (f : α → Bool) (y : Option β)
    (l : List α) (hx : ∀ x ∈ l, f x = false) :
    (l.firstM fun x => if f x then y else none) = none := by
  induction l with
  | nil => rfl
  | cons x xs ih =>
    have h1 : f x = false := hx x (by simp)
    simp only [List.firstM, h1, Bool.false_eq_true, if_false, Option.none_orElse]
    exact ih (fun z hz => hx z (List.mem_cons_of_mem _ hz))

/-- Helper: prefixes survive lowercasing. -/
theorem isPrefixOf_toLower (s m : Str) (h : s.isPrefixOf m = true) :
    (toLowerStr s).isPrefixOf (toLowerStr m) = true := by
  rw [List.isPrefixOf_iff_prefix] at h ⊢
  exact h.map Char.toLower

/-- Helper: searching for a low-codepoint character commutes with
lowercasing, since the case shift never produces such a character. -/
theorem findChar_toLower (a : Str) (sep : Char) (hs : sep.toNat < 65) :
    findChar (toLowerStr a) sep = findChar a sep := by
  induction a with
  | nil => rfl
  | cons d t ih =>
    by_cases hd : d = sep
    · subst hd
      simp [toLowerStr, findChar, toLower_self_low hs]
    · have h1 : (d.toLower == sep) = false :=
        beq_eq_false_iff_ne.mpr (fun he => hd (toLower_eq_low hs he))
      have h2 : (d == sep) = false := beq_eq_false_iff_ne.mpr hd
      simp only [toLowerStr, List.map_cons, findChar, h1, h2, Bool.false_eq_true,
        if_false]
      rw [show List.map Char.toLower t = toLowerStr t from rfl, ih]

/-- Helper: when the lowercased string starts with a separator-free block
followed by a separator, the original string decomposes at the first
occurrence of that separator, which sits exactly at the end of the block. -/
theorem sep_prefix_structure (a q : Str) (sep : Char) (hsep : sep.toNat < 65)
    (hq : ∀ d ∈ q, d ≠ sep)
    (hpre : (q ++ [sep]).isPrefixOf (toLowerStr a) = true) :
    ∃ xs rest, a = xs ++ sep :: rest ∧ (∀ d ∈ xs, d ≠ sep) ∧
      toLowerStr xs = q ∧ findChar a sep = some q.length ∧
      a.take q.length = xs := by
  rw [List.isPrefixOf_iff_prefix] at hpre
  obtain ⟨t, ht⟩ := hpre
  rw [List.append_assoc] at ht
  have hfindLow : findChar (toLowerStr a) sep = some q.length := by
    rw [← ht]
    exact findChar_append_sep q t sep hq
  have hfind : findChar a sep = some q.length := by
    rw [← findChar_toLower a sep hsep]
    exact hfindLow
  obtain ⟨xs, rest, ha, hlen, hfree⟩ := findChar_decomp a sep q.length hfind
  have hlowxs : toLowerStr xs = q := by
    have h1 : toLowerStr a = toLowerStr xs ++ sep :: toLowerStr rest := by
      rw [ha, toLowerStr_append]
      simp [toLowerStr, toLower_self_low hsep]
    have h2 : (toLowerStr xs ++ sep :: toLowerStr rest).take q.length =
        toLowerStr xs := by
      apply List.take_left'
      simp [toLowerStr, hlen]
    have h3 : (q ++ sep :: t).take q.length = q := List.take_left q (sep :: t)
    rw [← h2, ← h1, ← ht]
    exact h3
  exact ⟨xs, rest, ha, hfree, hlowxs,
    hfind, by rw [ha, List.take_left' hlen]⟩

/-- Helper: on a token of the shape block, equals sign, mask, every
equals-masking rule computes the token back. -/
theorem eqmask_output (m xs : Str) (hm : m = xs ++ lit "=" ++ MASK)
    (hxs : ∀ d ∈ xs, d ≠ '=') :
    (findChar m '=').map (fun i => m.take i ++ lit "=" ++ MASK) = some m := by
  have hshape : m = xs ++ '=' :: lit "***" := by
    rw [hm, List.append_assoc]
    rfl
  have hfind : findChar m '=' = some xs.length := by
    rw [hshape]
    exact findChar_append_sep xs (lit "***") '=' hxs
  have htake : m.take xs.length = xs := by
    rw [hshape, List.take_left' rfl]
  rw [hfind]
  show some (m.take xs.length ++ lit "=" ++ MASK) = some m
  rw [htake, hm]

/-- Helper: inline flag masking of an equals-masked token is either a miss or
the token itself. -/
theorem maskInlineFlag_eqmask (m xs : Str) (hm : m = xs ++ lit "=" ++ MASK)
    (hxs : ∀ d ∈ xs, d ≠ '=') :
    maskInlineFlag m = none ∨ maskInlineFlag m = some m := by
  have hout := eqmask_output m xs hm hxs
  rcases firstM_guard_shape (fun p => p.isPrefixOf (toLowerStr m))
      ((findChar m '=').map (fun i => m.take i ++ lit "=" ++ MASK))
      SENSITIVE_INLINE_FLAGS_LOWER with h | h
  · exact Or.inl h
  · refine Or.inr ?_
    rw [show maskInlineFlag m = SENSITIVE_INLINE_FLAGS_LOWER.firstM
        (fun p => if p.isPrefixOf (toLowerStr m) then
          (findChar m '=').map (fun i => m.take i ++ lit "=" ++ MASK)
        else none) from rfl, h, hout]

/-- Helper: environment variable masking of an equals-masked token that some
environment prefix matches returns the token itself. -/
theorem maskEnvVariable_eqmask_pos (m xs : Str) (hm : m = xs ++ lit "=" ++ MASK)
    (hxs : ∀ d ∈ xs, d ≠ '=')
    (hp : ∃ p ∈ SENSITIVE_ENV_PREFIXES_LOWER, p.isPrefixOf (toLowerStr m) = true) :
    maskEnvVariable m = some m := by
  have hout := eqmask_output m xs hm hxs
  have h := firstM_guard_const (fun p => p.isPrefixOf (toLowerStr m))
    ((findChar m '=').map (fun i => m.take i ++ lit "=" ++ MASK))
    SENSITIVE_ENV_PREFIXES_LOWER hp
  rw [show maskEnvVariable m = SENSITIVE_ENV_PREFIXES_LOWER.firstM
      (fun p => if p.isPrefixOf (toLowerStr m) then
        (findChar m '=').map (fun i => m.take i ++ lit "=" ++ MASK)
      else none) from rfl, h, hout]

/-- Helper: inline flag masking of an equals-masked token that some inline
prefix matches returns the token itself. -/
theorem maskInlineFlag_eqmask_pos (m xs : Str) (hm : m = xs ++ lit "=" ++ MASK)
    (hxs : ∀ d ∈ xs, d ≠ '=')
    (hp : ∃ p ∈ SENSITIVE_INLINE_FLAGS_LOWER, p.isPrefixOf (toLowerStr m) = true) :
    maskInlineFlag m = some m := by
  have hout := eqmask_output m xs hm hxs
  have h := firstM_guard_const (fun p => p.isPrefixOf (toLowerStr m))
    ((findChar m '=').map (fun i => m.take i ++ lit "=" ++ MASK))
    SENSITIVE_INLINE_FLAGS_LOWER hp
  rw [show maskInlineFlag m = SENSITIVE_INLINE_FLAGS_LOWER.firstM
      (fun p => if p.isPrefixOf (toLowerStr m) then
        (findChar m '=').map (fun i => m.take i ++ lit "=" ++ MASK)
      else none) from rfl, h, hout]

/-- Helper: none of the lowercased sensitive flags contains an equals sign. -/
theorem flags_eq_free : ∀ fl ∈ SENSITIVE_FLAGS_LOWER, ¬ '=' ∈ fl := by decide

/-- Helper: a token containing an equals sign is not a sensitive flag. -/
theorem not_flag_of_eq_mem (m : Str) (hmem : '=' ∈ m) :
    SENSITIVE_FLAGS_LOWER.contains (toLowerStr m) = false := by
  by_contra hcon
  rw [Bool.not_eq_false] at hcon
  have hmem2 : toLowerStr m ∈ SENSITIVE_FLAGS_LOWER := by
    simpa using hcon
  have : '=' ∈ toLowerStr m := by
    have := List.mem_map_of_mem Char.toLower hmem
    simpa [toLowerStr, toLower_self_low (by decide : ('=' : Char).toNat < 65)]
      using this
  exact flags_eq_free _ hmem2 this

/-- Helper: structure of every lowercased inline flag prefix, a separator-free
block closed by an equals sign. -/
theorem inline_prefix_struct :
    ∀ p ∈ SENSITIVE_INLINE_FLAGS_LOWER,
      p.dropLast ++ ['='] = p ∧ ¬ '=' ∈ p.dropLast := by decide

/-- Helper: structure of every lowercased environment variable prefix. -/
theorem env_prefix_struct :
    ∀ p ∈ SENSITIVE_ENV_PREFIXES_LOWER,
      p.dropLast ++ ['='] = p ∧ ¬ '=' ∈ p.dropLast := by decide

/-- Helper: rewriting sanitize token when the inline flag rule fires. -/
theorem sanitizeToken_inline (a m : Str) (h : maskInlineFlag a = some m) :
    sanitizeToken a = m := by
  simp [sanitizeToken, h]

/-- Helper: rewriting sanitize token when the environment rule fires first. -/
theorem sanitizeToken_env (a m : Str) (h1 : maskInlineFlag a = none)
    (h2 : maskEnvVariable a = some m) : sanitizeToken a = m := by
  simp [sanitizeToken, h1, h2]

/-- Helper: a successful equals-masking firstM produces a token of the
masked shape on which the matched prefix still matches. -/
theorem eqmask_extract (prefixes : List Str) (a m : Str)
    (hstruct : ∀ p ∈ prefixes, p.dropLast ++ ['='] = p ∧ ¬ '=' ∈ p.dropLast)
    (h : prefixes.firstM (fun p => if p.isPrefixOf (toLowerStr a) then
        (findChar a '=').map (fun i => a.take i ++ lit "=" ++ MASK)
      else none) = some m) :
    ∃ p ∈ prefixes, ∃ xs, m = xs ++ lit "=" ++ MASK ∧ (∀ d ∈ xs, d ≠ '=') ∧
      p.isPrefixOf (toLowerStr m) = true := by
  obtain ⟨p, hpmem, hpeq⟩ := firstM_eq_some _ _ _ h
  by_cases hpre : p.isPrefixOf (toLowerStr a) = true
  · rw [if_pos hpre, Option.map_eq_some'] at hpeq
    obtain ⟨j, hj, hmj⟩ := hpeq
    obtain ⟨hps, hpfree⟩ := hstruct p hpmem
    have hpre2 : (p.dropLast ++ ['=']).isPrefixOf (toLowerStr a) = true := by
      rw [hps]
      exact hpre
    obtain ⟨xs, rest, ha, hfree, hlowxs, hfind, htake⟩ :=
      sep_prefix_structure a p.dropLast '=' (by decide)
        (fun d hd hde => hpfree (hde ▸ hd)) hpre2
    have hj2 : j = p.dropLast.length :=
      Option.some.inj (hj.symm.trans hfind)
    have hm : m = xs ++ lit "=" ++ MASK := by
      rw [← hmj, hj2, htake]
    have hlowm : toLowerStr m = p ++ lit "***" := by
      rw [hm, toLowerStr_append, toLowerStr_append, hlowxs,
        show toLowerStr (lit "=") = lit "=" from rfl,
        show toLowerStr MASK = lit "***" from rfl,
        show (lit "=" : Str) = ['='] from rfl, hps]
    refine ⟨p, hpmem, xs, hm, hfree, ?_⟩
    rw [hlowm, List.isPrefixOf_iff_prefix]
    exact List.prefix_append p (lit "***")
  · rw [if_neg hpre] at hpeq
    exact absurd hpeq (by simp)

/-- Helper: the output of a firing inline flag rule is not a sensitive flag
and is a fixed point of the token rule chain. -/
theorem inline_out_fixed (a m : Str) (h : maskInlineFlag a = some m) :
    SENSITIVE_FLAGS_LOWER.contains (toLowerStr m) = false ∧
    sanitizeToken m = m := by
  have h2 : SENSITIVE_INLINE_FLAGS_LOWER.firstM
      (fun p => if p.isPrefixOf (toLowerStr a) then
        (findChar a '=').map (fun i => a.take i ++ lit "=" ++ MASK)
      else none) = some m := h
  obtain ⟨p, hpmem, xs, hm, hfree, hpm⟩ :=
    eqmask_extract SENSITIVE_INLINE_FLAGS_LOWER a m inline_prefix_struct h2
  refine ⟨not_flag_of_eq_mem m (by rw [hm]; simp; right; left; decide), ?_⟩
  have hfix : maskInlineFlag m = some m :=
    maskInlineFlag_eqmask_pos m xs hm hfree ⟨p, hpmem, hpm⟩
  exact sanitizeToken_inline m m hfix

/-- Helper: the output of a firing environment variable rule is not a
sensitive flag and is a fixed point of the token rule chain. -/
theorem env_out_fixed (a m : Str) (h : maskEnvVariable a = some m) :
    SENSITIVE_FLAGS_LOWER.contains (toLowerStr m) = false ∧
    sanitizeToken m = m := by
  have h2 : SENSITIVE_ENV_PREFIXES_LOWER.firstM
      (fun p => if p.isPrefixOf (toLowerStr a) then
        (findChar a '=').map (fun i => a.take i ++ lit "=" ++ MASK)
      else none) = some m := h
  obtain ⟨p, hpmem, xs, hm, hfree, hpm⟩ :=
    eqmask_extract SENSITIVE_ENV_PREFIXES_LOWER a m env_prefix_struct h2
  refine ⟨not_flag_of_eq_mem m (by rw [hm]; simp; right; left; decide), ?_⟩
  rcases maskInlineFlag_eqmask m xs hm hfree with hin | hin
  · have henv : maskEnvVariable m = some m :=
      maskEnvVariable_eqmask_pos m xs hm hfree ⟨p, hpmem, hpm⟩
    exact sanitizeToken_env m m hin henv
  · exact sanitizeToken_inline m m hin

/-- Helper: a prefix test fails whenever it fails after lowercasing. -/
theorem prefix_false_of_lower (s m : Str)
    (h : (toLowerStr s).isPrefixOf (toLowerStr m) = false) :
    s.isPrefixOf m = false := by
  by_contra hcon
  rw [Bool.not_eq_false] at hcon
  rw [isPrefixOf_toLower s m hcon] at h
  cases h

/-- Helper: the token pattern rule misses when none of its prefixes matches
after lowercasing. -/
theorem maskTokenPatterns_none_of_lower (m : Str)
    (h : ∀ s ∈ [lit "sk-ant-", lit "sk-", lit "ghp_", lit "gho_", lit "ghs_",
      lit "ghr_", lit "AKIA", lit "ASIA", lit "npm_"],
      (toLowerStr s).isPrefixOf (toLowerStr m) = false) :
    maskTokenPatterns m = none := by
  have t1 := prefix_false_of_lower (lit "sk-ant-") m (h _ (by simp))
  have t2 := prefix_false_of_lower (lit "sk-") m (h _ (by simp))
  have t3 := prefix_false_of_lower (lit "ghp_") m (h _ (by simp))
  have t4 := prefix_false_of_lower (lit "gho_") m (h _ (by simp))
  have t5 := prefix_false_of_lower (lit "ghs_") m (h _ (by simp))
  have t6 := prefix_false_of_lower (lit "ghr_") m (h _ (by simp))
  have t7 := prefix_false_of_lower (lit "AKIA") m (h _ (by simp))
  have t8 := prefix_false_of_lower (lit "ASIA") m (h _ (by simp))
  have t9 := prefix_false_of_lower (lit "npm_") m (h _ (by simp))
  simp [maskTokenPatterns, t1, t2, t3, t4, t5, t6, t7, t8, t9]

/-- Helper: the inline flag rule misses when no inline prefix matches. -/
theorem maskInlineFlag_none_of (m : Str)
    (h : ∀ p ∈ SENSITIVE_INLINE_FLAGS_LOWER,
      p.isPrefixOf (toLowerStr m) = false) :
    maskInlineFlag m = none := by
  rw [show maskInlineFlag m = SENSITIVE_INLINE_FLAGS_LOWER.firstM
      (fun p => if p.isPrefixOf (toLowerStr m) then
        (findChar m '=').map (fun i => m.take i ++ lit "=" ++ MASK)
      else none) from rfl]
  exact firstM_guard_none _ _ _ h

/-- Helper: the environment rule misses when no environment prefix matches. -/
theorem maskEnvVariable_none_of (m : Str)
    (h : ∀ p ∈ SENSITIVE_ENV_PREFIXES_LOWER,
      p.isPrefixOf (toLowerStr m) = false) :
    maskEnvVariable m = none := by
  rw [show maskEnvVariable m = SENSITIVE_ENV_PREFIXES_LOWER.firstM
      (fun p => if p.isPrefixOf (toLowerStr m) then
        (findChar m '=').map (fun i => m.take i ++ lit "=" ++ MASK)
      else none) from rfl]
  exact firstM_guard_none _ _ _ h

/-- Helper: a colon-masked header token is a fixed point of the token rule
chain under the stated prefix facts about its lowercased form. -/
theorem colonmask_fixed (m xs : Str) (hm : m = xs ++ lit ": " ++ MASK)
    (hfree : ∀ d ∈ xs, d ≠ ':')
    (hin : ∀ p ∈ SENSITIVE_INLINE_FLAGS_LOWER,
      p.isPrefixOf (toLowerStr m) = false)
    (henv : ∀ p ∈ SENSITIVE_ENV_PREFIXES_LOWER,
      p.isPrefixOf (toLowerStr m) = false)
    (htokp : ∀ s ∈ [lit "sk-ant-", lit "sk-", lit "ghp_", lit "gho_",
      lit "ghs_", lit "ghr_", lit "AKIA", lit "ASIA", lit "npm_"],
      (toLowerStr s).isPrefixOf (toLowerStr m) = false)
    (hb1 : (lit "bearer ").isPrefixOf (toLowerStr m) = false)
    (hb2 : (lit "basic ").isPrefixOf (toLowerStr m) = false)
    (hauth : (lit "authorization:").isPrefixOf (toLowerStr m) = true ∨
      ((lit "authorization:").isPrefixOf (toLowerStr m) = false ∧
       (lit "x-api-key:").isPrefixOf (toLowerStr m) = true)) :
    sanitizeToken m = m := by
  have hshape : m = xs ++ ':' :: lit " ***" := by
    rw [hm, List.append_assoc]
    rfl
  have hfind : findChar m ':' = some xs.length := by
    rw [hshape]
    exact findChar_append_sep xs (lit " ***") ':' hfree
  have htake : m.take xs.length = xs := by
    rw [hshape, List.take_left' rfl]
  have hmap : (findChar m ':').map (fun i => m.take i ++ lit ": " ++ MASK) =
      some m := by
    rw [hfind]
    show some (m.take xs.length ++ lit ": " ++ MASK) = some m
    rw [htake, hm]
  have hhead : maskHttpHeader m = some m := by
    rcases hauth with ha | ⟨ha, hx⟩
    · simp only [maskHttpHeader, hb1, hb2, ha, Bool.false_eq_true, if_false,
        if_true]
      exact hmap
    · simp only [maskHttpHeader, hb1, hb2, ha, hx, Bool.false_eq_true, if_false,
        if_true]
      exact hmap
  simp [sanitizeToken, maskInlineFlag_none_of m hin, maskEnvVariable_none_of m henv,
    maskTokenPatterns_none_of_lower m htokp, hhead]

/-- Helper: the output of a firing token pattern rule is not a sensitive flag
and is a fixed point of the token rule chain. -/
theorem token_out_fixed (a m : Str) (h : maskTokenPatterns a = some m) :
    SENSITIVE_FLAGS_LOWER.contains (toLowerStr m) = false ∧
    sanitizeToken m = m := by
  unfold maskTokenPatterns at h
  split_ifs at h with h1 h2 h3 h4 h5
  · have hm := Option.some.inj h
    rw [← hm]
    constructor <;> decide
  · have hm := Option.some.inj h
    rw [← hm]
    constructor <;> decide
  · have hm := Option.some.inj h
    simp only [Bool.or_eq_true] at h3
    rcases h3 with ((hg | hg) | hg) | hg
    · obtain ⟨t, ht⟩ := List.isPrefixOf_iff_prefix.mp hg
      have ht4 : a.take 4 = lit "ghp_" := by
        rw [← ht]
        exact List.take_left' rfl
      rw [← hm, ht4]
      constructor <;> decide
    · obtain ⟨t, ht⟩ := List.isPrefixOf_iff_prefix.mp hg
      have ht4 : a.take 4 = lit "gho_" := by
        rw [← ht]
        exact List.take_left' rfl
      rw [← hm, ht4]
      constructor <;> decide
    · obtain ⟨t, ht⟩ := List.isPrefixOf_iff_prefix.mp hg
      have ht4 : a.take 4 = lit "ghs_" := by
        rw [← ht]
        exact List.take_left' rfl
      rw [← hm, ht4]
      constructor <;> decide
    · obtain ⟨t, ht⟩ := List.isPrefixOf_iff_prefix.mp hg
      have ht4 : a.take 4 = lit "ghr_" := by
        rw [← ht]
        exact List.take_left' rfl
      rw [← hm, ht4]
      constructor <;> decide
  · have hm := Option.some.inj h
    rw [← hm]
    constructor <;> decide
  · have hm := Option.some.inj h
    rw [← hm]
    constructor <;> decide

/-- Helper: the output of a firing header rule is not a sensitive flag and is
a fixed point of the token rule chain. -/
theorem header_out_fixed (a m : Str) (h : maskHttpHeader a = some m) :
    SENSITIVE_FLAGS_LOWER.contains (toLowerStr m) = false ∧
    sanitizeToken m = m := by
  unfold maskHttpHeader at h
  split_ifs at h with h1 h2 h3 h4
  · have hm := Option.some.inj h
    rw [← hm]
    constructor <;> decide
  · have hm := Option.some.inj h
    rw [← hm]
    constructor <;> decide
  · rw [Option.map_eq_some'] at h
    obtain ⟨j, hj, hmj⟩ := h
    have hpre2 : (lit "authorization" ++ [':']).isPrefixOf (toLowerStr a) = true := h3
    obtain ⟨xs, rest, ha, hfree, hlowxs, hfind, htake⟩ :=
      sep_prefix_structure a (lit "authorization") ':' (by decide) (by decide) hpre2
    have hj2 : j = (lit "authorization").length :=
      Option.some.inj (hj.symm.trans hfind)
    have hm : m = xs ++ lit ": " ++ MASK := by
      rw [← hmj, hj2, htake]
    have hlowm : toLowerStr m = lit "authorization: ***" := by
      rw [hm, toLowerStr_append, toLowerStr_append, hlowxs,
        show toLowerStr (lit ": ") = lit ": " from rfl,
        show toLowerStr MASK = lit "***" from rfl]
      rfl
    refine ⟨by rw [hlowm]; decide, ?_⟩
    refine colonmask_fixed m xs hm hfree ?_ ?_ ?_ ?_ ?_ ?_ <;>
      rw [hlowm]
    · decide
    · decide
    · decide
    · decide
    · decide
    · exact Or.inl (by decide)
  · rw [Option.map_eq_some'] at h
    obtain ⟨j, hj, hmj⟩ := h
    have hpre2 : (lit "x-api-key" ++ [':']).isPrefixOf (toLowerStr a) = true := h4
    obtain ⟨xs, rest, ha, hfree, hlowxs, hfind, htake⟩ :=
      sep_prefix_structure a (lit "x-api-key") ':' (by decide) (by decide) hpre2
    have hj2 : j = (lit "x-api-key").length :=
      Option.some.inj (hj.symm.trans hfind)
    have hm : m = xs ++ lit ": " ++ MASK := by
      rw [← hmj, hj2, htake]
    have hlowm : toLowerStr m = lit "x-api-key: ***" := by
      rw [hm, toLowerStr_append, toLowerStr_append, hlowxs,
        show toLowerStr (lit ": ") = lit ": " from rfl,
        show toLowerStr MASK = lit "***" from rfl]
      rfl
    refine ⟨by rw [hlowm]; decide, ?_⟩
    refine colonmask_fixed m xs hm hfree ?_ ?_ ?_ ?_ ?_ ?_ <;>
      rw [hlowm]
    · decide
    · decide
    · decide
    · decide
    · decide
    · exact Or.inr ⟨by decide, by decide⟩

/-- Helper: the URL credential rule misses on tokens without a scheme
separator. -/
theorem maskUrlCredentials_none (a : Str)
    (h : containsSub a (lit "://") = false) : maskUrlCredentials a = none := by
  unfold maskUrlCredentials
  rw [findSub_eq_none_of_not_contains a (lit "://") h]

/-- Helper: rewriting sanitize token when the token pattern rule fires
first. -/
theorem sanitizeToken_token (a m : Str) (h1 : maskInlineFlag a = none)
    (h2 : maskEnvVariable a = none) (h3 : maskTokenPatterns a = some m) :
    sanitizeToken a = m := by
  simp [sanitizeToken, h1, h2, h3]

/-- Helper: rewriting sanitize token when the header rule fires first. -/
theorem sanitizeToken_header (a m : Str) (h1 : maskInlineFlag a = none)
    (h2 : maskEnvVariable a = none) (h3 : maskTokenPatterns a = none)
    (h4 : maskHttpHeader a = some m) : sanitizeToken a = m := by
  simp [sanitizeToken, h1, h2, h3, h4]

/-- Helper: rewriting sanitize token when every rule misses. -/
theorem sanitizeToken_id (a : Str) (h1 : maskInlineFlag a = none)
    (h2 : maskEnvVariable a = none) (h3 : maskTokenPatterns a = none)
    (h4 : maskHttpHeader a = none) (h5 : maskUrlCredentials a = none) :
    sanitizeToken a = a := by
  simp [sanitizeToken, h1, h2, h3, h4, h5]

/-- Helper: on a token without a scheme separator that is not a sensitive
flag, the rule chain output is not a sensitive flag and the chain is
idempotent on it. -/
theorem sanitizeToken_fixed (a : Str)
    (hnu : containsSub a (lit "://") = false)
    (hfl : SENSITIVE_FLAGS_LOWER.contains (toLowerStr a) = false) :
    SENSITIVE_FLAGS_LOWER.contains (toLowerStr (sanitizeToken a)) = false ∧
    sanitizeToken (sanitizeToken a) = sanitizeToken a := by
  rcases hin : maskInlineFlag a with _ | m
  · rcases henv : maskEnvVariable a with _ | m
    · rcases htok : maskTokenPatterns a with _ | m
      · rcases hhead : maskHttpHeader a with _ | m
        · have hurl := maskUrlCredentials_none a hnu
          have hid := sanitizeToken_id a hin henv htok hhead hurl
          rw [hid]
          exact ⟨hfl, hid⟩
        · have hfix := header_out_fixed a m hhead
          rw [sanitizeToken_header a m hin henv htok hhead]
          exact hfix
      · have hfix := token_out_fixed a m htok
        rw [sanitizeToken_token a m hin henv htok]
        exact hfix
    · have hfix := env_out_fixed a m henv
      rw [sanitizeToken_env a m hin henv]
      exact hfix
  · have hfix := inline_out_fixed a m hin
    rw [sanitizeToken_inline a m hin]
    exact hfix

/-- Helper: the sanitize loop is idempotent, in either mask state, on
argument lists whose tokens carry no scheme separator. -/
theorem sanitizeAux_idem (args : List Str)
    (h : ∀ a ∈ args, containsSub a (lit "://") = false) :
    ∀ mn : Bool, sanitizeAux mn (sanitizeAux mn args) = sanitizeAux mn args := by
  induction args with
  | nil =>
    intro mn
    cases mn <;> rfl
  | cons a rest ih =>
    intro mn
    have hrest := ih (fun x hx => h x (List.mem_cons_of_mem _ hx))
    have ha := h a (by simp)
    cases mn
    case true =>
      rw [show sanitizeAux true (a :: rest) = MASK :: sanitizeAux false rest
          from rfl]
      rw [show sanitizeAux true (MASK :: sanitizeAux false rest) =
          MASK :: sanitizeAux false (sanitizeAux false rest) from rfl]
      rw [hrest false]
    case false =>
      by_cases hf : SENSITIVE_FLAGS_LOWER.contains (toLowerStr a) = true
      · have hmem : toLowerStr a ∈ SENSITIVE_FLAGS_LOWER := by simpa using hf
        have e1 : sanitizeAux false (a :: rest) = a :: sanitizeAux true rest := by
          simp [sanitizeAux, hmem]
        have e2 : sanitizeAux false (a :: sanitizeAux true rest) =
            a :: sanitizeAux true (sanitizeAux true rest) := by
          simp [sanitizeAux, hmem]
        rw [e1, e2, hrest true]
      · rw [Bool.not_eq_true] at hf
        obtain ⟨hof, hfix⟩ := sanitizeToken_fixed a ha hf
        have hnmem : toLowerStr a ∉ SENSITIVE_FLAGS_LOWER := by simpa using hf
        have honmem : toLowerStr (sanitizeToken a) ∉ SENSITIVE_FLAGS_LOWER := by
          simpa using hof
        have e1 : sanitizeAux false (a :: rest) =
            sanitizeToken a :: sanitizeAux false rest := by
          simp [sanitizeAux, hnmem]
        have e2 : sanitizeAux false (sanitizeToken a :: sanitizeAux false rest) =
            sanitizeToken (sanitizeToken a) ::
              sanitizeAux false (sanitizeAux false rest) := by
          simp [sanitizeAux, honmem]
        rw [e1, e2, hfix, hrest false]

/-- Claim C9 counterexample: sanitize_args is not idempotent; masking the
URL credentials of a twenty character token beginning with sk- lengthens it
past twenty characters, and a second pass then rewrites it again through the
OpenAI key rule. -/
theorem c9_sanitize_not_idempotent_counterexample :
    sanitizeArgs (sanitizeArgs [lit "sk-://:@hhhhhhhhhhhh"]) ≠
      sanitizeArgs [lit "sk-://:@hhhhhhhhhhhh"] ∧
    sanitizeArgs [lit "sk-://:@hhhhhhhhhhhh"] = [lit "sk-://***@hhhhhhhhhhhh"] ∧
    sanitizeArgs [lit "sk-://***@hhhhhhhhhhhh"] = [lit "sk-***"] := by
  refine ⟨?_, by decide, by decide⟩
  intro hcon
  exact absurd hcon (by decide)

/-- Claim C9 (amended): sanitize_args is idempotent on every argv none of
whose tokens contains a scheme separator, so in particular already-masked
tokens are mapped to themselves on a second pass; full idempotence fails only
through the URL credential rule. -/
theorem c9_sanitize_idempotent_amended :
    (∀ args : List Str, (∀ a ∈ args, containsSub a (lit "://") = false) →
      sanitizeArgs (sanitizeArgs args) = sanitizeArgs args)
    ∧ sanitizeArgs [lit "***", lit "sk-ant-***", lit "--token=***",
        lit "Bearer ***"] =
      [lit "***", lit "sk-ant-***", lit "--token=***", lit "Bearer ***"] :=
  ⟨fun args h => sanitizeAux_idem args h false, by decide⟩

/-- Witness for C9: the amended idempotence applied to the masked form of the
scenario argv. -/
theorem c9_sanitize_idempotent_amended_witness :
    sanitizeArgs (sanitizeArgs [lit "--password", lit "hunter2"]) =
      sanitizeArgs [lit "--password", lit "hunter2"] :=
  c9_sanitize_idempotent_amended.1 [lit "--password", lit "hunter2"] (by decide)

end AgentWatch
